import Mathlib

/-!
# lk: USB device-controller common definitions and RISC-V arch operations

A shallow embedding of

* `platform/lpc43xx/udc-common.h` : the USB request and descriptor-type
  constants, `union setup_packet`, `struct udc_descriptor` and the descriptor
  registry interface (`udc_create_descriptors`, `udc_descriptor_find`);
* `arch/riscv/include/arch/arch_ops.h` : interrupt masking, the atomic
  fetch-and-modify primitives and the current-thread register.

Machine integers are natural numbers together with an explicit reduction
modulo `2 ^ w`; a C `int` is represented by its 32-bit two's-complement
pattern and read back as a signed number by `int_val`.
-/

namespace lk

/-! ## udc-common.h : constants -/

def GET_STATUS : Nat := 0
def CLEAR_FEATURE : Nat := 1
def SET_FEATURE : Nat := 3
def SET_ADDRESS : Nat := 5
def GET_DESCRIPTOR : Nat := 6
def SET_DESCRIPTOR : Nat := 7
def GET_CONFIGURATION : Nat := 8
def SET_CONFIGURATION : Nat := 9
def GET_INTERFACE : Nat := 10
def SET_INTERFACE : Nat := 11
def SYNCH_FRAME : Nat := 12
def SET_SEL : Nat := 48

def TYPE_DEVICE : Nat := 1
def TYPE_CONFIGURATION : Nat := 2
def TYPE_STRING : Nat := 3
def TYPE_INTERFACE : Nat := 4
def TYPE_ENDPOINT : Nat := 5
def TYPE_BOS : Nat := 15
def TYPE_DEVICE_CAP : Nat := 16
def TYPE_SS_EP_COMP : Nat := 48

def DEVICE_READ : Nat := 0x80
def DEVICE_WRITE : Nat := 0x00
def INTERFACE_READ : Nat := 0x81
def INTERFACE_WRITE : Nat := 0x01
def ENDPOINT_READ : Nat := 0x82
def ENDPOINT_WRITE : Nat := 0x02

/-! ## udc-common.h : `union setup_packet` -/

/-- The packed `union setup_packet`: eight bytes of storage, in address order.
Both anonymous structs of the union are views of these bytes. -/
structure setup_packet where
  b0 : Fin 256
  b1 : Fin 256
  b2 : Fin 256
  b3 : Fin 256
  b4 : Fin 256
  b5 : Fin 256
  b6 : Fin 256
  b7 : Fin 256
  deriving DecidableEq

/-- Little-endian load of a `uint16_t` from two consecutive bytes. -/
def load16 (lo hi : Fin 256) : Nat := lo.val ||| (hi.val <<< 8)

/-- Little-endian load of a `uint32_t` from four consecutive bytes. -/
def load32 (a b c d : Fin 256) : Nat :=
  a.val ||| (b.val <<< 8) ||| (c.val <<< 16) ||| (d.val <<< 24)

/-- The byte of `x` at position `k` (little-endian store of a wider integer). -/
def byte_of (x k : Nat) : Fin 256 := ⟨(x >>> (8 * k)) % 256, Nat.mod_lt _ (by decide)⟩

namespace setup_packet

/-- Reading the eight bytes of a SETUP transfer as a `union setup_packet`. -/
def decode (b0 b1 b2 b3 b4 b5 b6 b7 : Fin 256) : setup_packet :=
  ⟨b0, b1, b2, b3, b4, b5, b6, b7⟩

/-- Member `type` : `uint8_t` at offset 0. -/
def type (p : setup_packet) : Nat := p.b0.val

/-- Member `request` : `uint8_t` at offset 1. -/
def request (p : setup_packet) : Nat := p.b1.val

/-- Member `value` : `uint16_t` at offset 2. -/
def value (p : setup_packet) : Nat := load16 p.b2 p.b3

/-- Member `index` : `uint16_t` at offset 4. -/
def index (p : setup_packet) : Nat := load16 p.b4 p.b5

/-- Member `length` : `uint16_t` at offset 6. -/
def length (p : setup_packet) : Nat := load16 p.b6 p.b7

/-- Member `w0` : `uint32_t` at offset 0. -/
def w0 (p : setup_packet) : Nat := load32 p.b0 p.b1 p.b2 p.b3

/-- Member `w1` : `uint32_t` at offset 4. -/
def w1 (p : setup_packet) : Nat := load32 p.b4 p.b5 p.b6 p.b7

/-- Storing the five members of the structured view. -/
def of_fields (type request value index length : Nat) : setup_packet :=
  ⟨byte_of type 0, byte_of request 0, byte_of value 0, byte_of value 1,
    byte_of index 0, byte_of index 1, byte_of length 0, byte_of length 1⟩

/-- Storing the two members of the raw view. -/
def of_words (w0 w1 : Nat) : setup_packet :=
  ⟨byte_of w0 0, byte_of w0 1, byte_of w0 2, byte_of w0 3,
    byte_of w1 0, byte_of w1 1, byte_of w1 2, byte_of w1 3⟩

end setup_packet

/-! ## udc-common.h : `struct udc_descriptor` -/

/-- The tag of a descriptor, `((TYPE << 8) | NUM)`, as stored in the
`uint16_t` member `tag`. -/
def descriptor_tag (type num : Nat) : Nat := ((type <<< 8) ||| num) % 2 ^ 16

/-- The `struct udc_descriptor` without its `next` pointer: the linked list is
the order of a Lean list. `tag` and `len` are `uint16_t`; `data` holds the
encoded descriptor. -/
structure udc_descriptor where
  tag : Nat
  len : Nat
  data : List Nat
  deriving DecidableEq

/-! ## udc-common.h : the descriptor registry

The header only declares `udc_create_descriptors`, `udc_descriptor_find` and
`udc_ept_desc_fill`, and the types `udc_device_t`, `udc_gadget_t` and
`udc_endpoint_t` are declared elsewhere. The definitions of this section
follow sections 3, 4.1 and 4.2 of the specification. -/

/-- Modelled from the spec: `udc_endpoint_t`, an endpoint of a function: its
number and direction, from which the index of its tag is derived. -/
structure udc_endpoint where
  num : Nat
  dir_in : Bool
  deriving DecidableEq

/-- Modelled from the spec: an interface descriptor contributed by a function:
interface number, encoded bytes and the endpoint addresses it references. -/
structure udc_interface where
  num : Nat
  data : List Nat
  ept_refs : List Nat
  deriving DecidableEq

/-- Modelled from the spec: a referenced string: its index and encoded bytes. -/
structure udc_string where
  num : Nat
  data : List Nat
  deriving DecidableEq

/-- Modelled from the spec: `udc_gadget_t`, a function ("gadget"): the
configuration it contributes to, its interfaces, endpoints and strings, and
whether it declares SuperSpeed or capability requirements. -/
structure udc_gadget where
  config : Nat
  interfaces : List udc_interface
  endpoints : List udc_endpoint
  strings : List udc_string
  superspeed : Bool
  deriving DecidableEq

/-- Modelled from the spec: a configuration of the device: its value (the
index of its tag) and the bytes of the configuration descriptor proper, whose
total-length field (bytes 2 and 3, little-endian) is patched by the assembler. -/
structure udc_config where
  value : Nat
  data : List Nat
  deriving DecidableEq

/-- Modelled from the spec: `udc_device_t`, the device-level input: the
device descriptor, the configurations, the language-ID descriptor, the
device's own strings, and the BOS and device-capability descriptors. -/
structure udc_device where
  data : List Nat
  configs : List udc_config
  langid : List Nat
  strings : List udc_string
  bos : List Nat
  device_cap : List Nat
  deriving DecidableEq

/-- Modelled from the spec: `AssemblyError` (sections 4.2 and 7): an
out-of-range tag component, the first conflicting tag, the first dangling
endpoint reference, or a configuration whose length field does not match. -/
inductive AssemblyError where
  | out_of_range (type num : Nat)
  | duplicate_tag (tag : Nat)
  | dangling_endpoint (addr : Nat)
  | length_mismatch (config : Nat)
  deriving DecidableEq

/-- Modelled from the spec: a descriptor before it is given its tag: type,
index within the type, and encoded bytes. -/
structure raw_descriptor where
  type : Nat
  num : Nat
  data : List Nat
  deriving DecidableEq

/-- Modelled from the spec: the node of a descriptor: tag `(type << 8) | index`
and the byte length of the encoding, both stored in 16-bit fields. -/
def raw_descriptor.node (r : raw_descriptor) : udc_descriptor :=
  ⟨descriptor_tag r.type r.num, r.data.length % 2 ^ 16, r.data⟩

/-- Modelled from the spec: the address of an endpoint, from which its tag
is derived: the endpoint number with bit 7 set for the IN direction. -/
def udc_endpoint.addr (e : udc_endpoint) : Nat :=
  e.num ||| (if e.dir_in then 0x80 else 0)

/-- Modelled from the spec: step 2 of the assembly for one function: its
interface descriptors, then its endpoint descriptors, whose bytes come from
the fill hook `udc_ept_desc_fill` (provided by the driver, here `fill`). -/
def gadget_descriptors (fill : udc_endpoint → List Nat) (g : udc_gadget) :
    List raw_descriptor :=
  g.interfaces.map (fun i => ⟨TYPE_INTERFACE, i.num, i.data⟩) ++
    g.endpoints.map (fun e => ⟨TYPE_ENDPOINT, e.addr, fill e⟩)

/-- Modelled from the spec: step 2 for one configuration: everything emitted
under the configuration descriptor, by the functions contributing to it, in
declaration order. -/
def config_nested (fill : udc_endpoint → List Nat) (gadgets : List udc_gadget)
    (c : udc_config) : List raw_descriptor :=
  (gadgets.filter (fun g => g.config = c.value)).flatMap (gadget_descriptors fill)

/-- Modelled from the spec: step 3, the back-patch: the 16-bit total-length
field of a configuration descriptor, bytes 2 and 3, little-endian. -/
def patch_total_length (data : List Nat) (total : Nat) : List Nat :=
  (data.set 2 (total % 256)).set 3 (total / 256 % 256)

/-- Modelled from the spec: the total-length field of a configuration node. -/
def udc_descriptor.total_length (d : udc_descriptor) : Nat :=
  d.data.getD 2 0 + 256 * d.data.getD 3 0

/-- Modelled from the spec: steps 2 and 3 for one configuration: the
configuration descriptor, patched with the sum of the bytes emitted under it. -/
def config_descriptor (fill : udc_endpoint → List Nat) (gadgets : List udc_gadget)
    (c : udc_config) : raw_descriptor :=
  ⟨TYPE_CONFIGURATION, c.value,
    patch_total_length c.data (((config_nested fill gadgets c).map (fun r => r.data.length)).sum)⟩

/-- Modelled from the spec: step 4, the string descriptors: the language-ID
descriptor at index 0, then one per string of the device and of the functions. -/
def string_descriptors (device : udc_device) (gadgets : List udc_gadget) :
    List raw_descriptor :=
  ⟨TYPE_STRING, 0, device.langid⟩ ::
    (device.strings ++ gadgets.flatMap (fun g => g.strings)).map
      (fun s => ⟨TYPE_STRING, s.num, s.data⟩)

/-- Modelled from the spec: step 4, the BOS and device-capability descriptors,
present when some function declares SuperSpeed or capability requirements. -/
def bos_descriptors (device : udc_device) (gadgets : List udc_gadget) :
    List raw_descriptor :=
  if gadgets.any (fun g => g.superspeed) then
    [⟨TYPE_BOS, 0, device.bos⟩, ⟨TYPE_DEVICE_CAP, 0, device.device_cap⟩]
  else []

/-- Modelled from the spec: steps 1 to 4 of section 4.2: the descriptors
built from the inputs, in traversal order, before validation. -/
def emit_descriptors (fill : udc_endpoint → List Nat) (device : udc_device)
    (gadgets : List udc_gadget) : List raw_descriptor :=
  ⟨TYPE_DEVICE, 0, device.data⟩ ::
    (device.configs.flatMap
        (fun c => config_descriptor fill gadgets c :: config_nested fill gadgets c) ++
      (string_descriptors device gadgets ++ bos_descriptors device gadgets))

/-- Modelled from the spec: the nodes built from the inputs, each with the
tag it was given. -/
def built_descriptors (fill : udc_endpoint → List Nat) (device : udc_device)
    (gadgets : List udc_gadget) : List udc_descriptor :=
  (emit_descriptors fill device gadgets).map raw_descriptor.node

/-- Modelled from the spec: the first tag that occurs again later in the list. -/
def first_duplicate : List Nat → Option Nat
  | [] => none
  | t :: ts => if t ∈ ts then some t else first_duplicate ts

/-- Modelled from the spec: `find` of section 4.1, a scan of the nodes in
order: the first node with the tag, or not-found. -/
def registry_find : List udc_descriptor → Nat → Option udc_descriptor
  | [], _ => none
  | d :: rest, tag => if d.tag = tag then some d else registry_find rest tag

/-- Modelled from the spec: the endpoint references of all interfaces. -/
def endpoint_refs (gadgets : List udc_gadget) : List Nat :=
  gadgets.flatMap (fun g => g.interfaces.flatMap (fun i => i.ept_refs))

/-- Modelled from the spec: `assemble` of section 4.2: build the descriptors
(steps 1 to 4), then validate (step 5): tag components in range, no
duplicate tag, every endpoint reference of an interface resolves, and the
length field of every configuration equals the sum of the lengths of the
descriptors nested under it. A registry is returned only if all checks pass. -/
def assemble (fill : udc_endpoint → List Nat) (device : udc_device)
    (gadgets : List udc_gadget) : Except AssemblyError (List udc_descriptor) :=
  match (emit_descriptors fill device gadgets).find? (fun r => decide (¬ r.num < 256)) with
  | some r => .error (.out_of_range r.type r.num)
  | none =>
    let registry := built_descriptors fill device gadgets
    match first_duplicate (registry.map (fun d => d.tag)) with
    | some t => .error (.duplicate_tag t)
    | none =>
      match (endpoint_refs gadgets).find?
          (fun a => (registry_find registry (descriptor_tag TYPE_ENDPOINT a)).isNone) with
      | some a => .error (.dangling_endpoint a)
      | none =>
        match device.configs.find? (fun c =>
            decide ((config_descriptor fill gadgets c).node.total_length ≠
              (((config_nested fill gadgets c).map raw_descriptor.node).map
                (fun d => d.len)).sum)) with
        | some c => .error (.length_mismatch c.value)
        | none => .ok registry

/-- Modelled from the spec: the registry in effect, the list the driver
searches; empty before the first assembly. -/
structure udc_state where
  desc_list : List udc_descriptor
  deriving DecidableEq

/-- Modelled from the spec: `udc_create_descriptors`: a complete, validated
registry replaces the previous one; when assembly fails the previous
registry remains in effect. -/
def udc_create_descriptors (fill : udc_endpoint → List Nat) (st : udc_state)
    (device : udc_device) (gadget : List udc_gadget) : udc_state :=
  match assemble fill device gadget with
  | .ok registry => ⟨registry⟩
  | .error _ => st

/-- Modelled from the spec: `udc_descriptor_find`: `find` on the registry in
effect; `none` is the null pointer. -/
def udc_descriptor_find (st : udc_state) (tag : Nat) : Option udc_descriptor :=
  registry_find st.desc_list tag

/-- A full-speed device with one configuration and one function with one
interface and two bulk endpoints, and two strings. -/
def example_device : udc_device :=
  { data := [18, 1, 0, 2, 0, 0, 0, 64, 0xd1, 0x18, 0x0d, 0xa5, 0, 1, 1, 2, 0, 1],
    configs := [⟨1, [9, 2, 0, 0, 1, 1, 0, 0x80, 250]⟩],
    langid := [4, 3, 0x09, 0x04],
    strings := [⟨1, [4, 3, 0x6c, 0]⟩, ⟨2, [4, 3, 0x6b, 0]⟩],
    bos := [], device_cap := [] }

/-- The function of `example_device`. -/
def example_gadget : udc_gadget :=
  { config := 1,
    interfaces := [⟨0, [9, 4, 0, 0, 2, 0xff, 0, 0, 0], [0x81, 0x01]⟩],
    endpoints := [⟨1, true⟩, ⟨1, false⟩],
    strings := [],
    superspeed := false }

/-- A fill hook: a bulk endpoint descriptor with 64-byte packets. -/
def example_fill (e : udc_endpoint) : List Nat := [7, 5, e.addr, 2, 64, 0, 0]

/-! ## arch_ops.h : machine state -/

/-- The part of a RISC-V hart that `arch_ops.h` touches: the status CSR
(`RISCV_CSR_XSTATUS`), the `tp` register that holds `__current_thread`, and
the `int` cells of memory, indexed by address and holding 32-bit patterns. -/
structure arch_state where
  xstatus : Nat
  tp : Nat
  mem : Nat → Nat

/-- Modelled from the spec: `riscv_csr_set` of `arch/riscv.h` (not among the
sources), the `csrs` instruction: the bits of the operand are set in the CSR. -/
def riscv_csr_set (csr bits : Nat) : Nat := csr ||| bits

/-- Modelled from the spec: `riscv_csr_clear` of `arch/riscv.h` (not among
the sources), the `csrc` instruction: the bits of the operand are cleared in
the CSR. The complement is taken within the `xlen` bits of the register. -/
def riscv_csr_clear (xlen csr bits : Nat) : Nat := csr &&& ((2 ^ xlen - 1) ^^^ bits)

/-- Modelled from the spec: `riscv_csr_read` of `arch/riscv.h` (not among the
sources), the `csrr` instruction. -/
def riscv_csr_read (csr : Nat) : Nat := csr

/-- Function `arch_enable_ints`; `IE` is the mask `RISCV_CSR_XSTATUS_IE`, whose
definition is not among the sources. -/
def arch_enable_ints (IE : Nat) (s : arch_state) : arch_state :=
  { s with xstatus := riscv_csr_set s.xstatus IE }

/-- Function `arch_disable_ints`; `xlen` is the width of the CSR. -/
def arch_disable_ints (xlen IE : Nat) (s : arch_state) : arch_state :=
  { s with xstatus := riscv_csr_clear xlen s.xstatus IE }

/-- Function `arch_ints_disabled`: `!(status & IE)`. -/
def arch_ints_disabled (IE : Nat) (s : arch_state) : Bool :=
  !(decide ((riscv_csr_read s.xstatus &&& IE) ≠ 0))

/-- Signed reading of a 32-bit pattern (the value of a C `int`). -/
def int_val (w : Nat) : Int := if w < 2 ^ 31 then (w : Int) else (w : Int) - 2 ^ 32

/-- The representative of `x` modulo `2 ^ 32` in the range of a C `int`. -/
def wrap_int (x : Int) : Int := (x + 2 ^ 31) % 2 ^ 32 - 2 ^ 31

/-- Modelled from the spec: the compiler builtin `__atomic_fetch_add` on an
`int` cell: it returns the prior content and stores the sum, which wraps. -/
def __atomic_fetch_add (mem : Nat → Nat) (ptr val : Nat) : Nat × (Nat → Nat) :=
  (mem ptr, Function.update mem ptr ((mem ptr + val) % 2 ^ 32))

/-- Modelled from the spec: the compiler builtin `__atomic_fetch_or`. -/
def __atomic_fetch_or (mem : Nat → Nat) (ptr val : Nat) : Nat × (Nat → Nat) :=
  (mem ptr, Function.update mem ptr (mem ptr ||| val))

/-- Modelled from the spec: the compiler builtin `__atomic_fetch_and`. -/
def __atomic_fetch_and (mem : Nat → Nat) (ptr val : Nat) : Nat × (Nat → Nat) :=
  (mem ptr, Function.update mem ptr (mem ptr &&& val))

/-- Modelled from the spec: the compiler builtin `__atomic_exchange_n`. -/
def __atomic_exchange_n (mem : Nat → Nat) (ptr val : Nat) : Nat × (Nat → Nat) :=
  (mem ptr, Function.update mem ptr val)

/-- Function `atomic_add`: the returned `int` and the state after the call. -/
def atomic_add (s : arch_state) (ptr val : Nat) : Nat × arch_state :=
  let r := __atomic_fetch_add s.mem ptr val
  (r.1, { s with mem := r.2 })

/-- Function `atomic_or`. -/
def atomic_or (s : arch_state) (ptr val : Nat) : Nat × arch_state :=
  let r := __atomic_fetch_or s.mem ptr val
  (r.1, { s with mem := r.2 })

/-- Function `atomic_and`. -/
def atomic_and (s : arch_state) (ptr val : Nat) : Nat × arch_state :=
  let r := __atomic_fetch_and s.mem ptr val
  (r.1, { s with mem := r.2 })

/-- Function `atomic_swap`. -/
def atomic_swap (s : arch_state) (ptr val : Nat) : Nat × arch_state :=
  let r := __atomic_exchange_n s.mem ptr val
  (r.1, { s with mem := r.2 })

/-- Function `get_current_thread`: the value read and the (unchanged) state. -/
def get_current_thread (s : arch_state) : Nat × arch_state := (s.tp, s)

/-- Function `set_current_thread`. -/
def set_current_thread (t : Nat) (s : arch_state) : arch_state := { s with tp := t }

/-! ## Theorems -/

/-- C6: the request codes and descriptor types have the standard USB values,
each fits in one byte, and the values are pairwise distinct within each of
the two groups. -/
theorem usb_constants_standard :
    (GET_STATUS = 0 ∧ CLEAR_FEATURE = 1 ∧ SET_FEATURE = 3 ∧ SET_ADDRESS = 5 ∧
      GET_DESCRIPTOR = 6 ∧ SET_DESCRIPTOR = 7 ∧ GET_CONFIGURATION = 8 ∧
      SET_CONFIGURATION = 9 ∧ GET_INTERFACE = 10 ∧ SET_INTERFACE = 11 ∧
      SYNCH_FRAME = 12 ∧ SET_SEL = 48) ∧
    (TYPE_DEVICE = 1 ∧ TYPE_CONFIGURATION = 2 ∧ TYPE_STRING = 3 ∧ TYPE_INTERFACE = 4 ∧
      TYPE_ENDPOINT = 5 ∧ TYPE_BOS = 15 ∧ TYPE_DEVICE_CAP = 16 ∧ TYPE_SS_EP_COMP = 48) ∧
    (∀ c ∈ [GET_STATUS, CLEAR_FEATURE, SET_FEATURE, SET_ADDRESS, GET_DESCRIPTOR,
        SET_DESCRIPTOR, GET_CONFIGURATION, SET_CONFIGURATION, GET_INTERFACE,
        SET_INTERFACE, SYNCH_FRAME, SET_SEL], c < 256) ∧
    (∀ c ∈ [TYPE_DEVICE, TYPE_CONFIGURATION, TYPE_STRING, TYPE_INTERFACE, TYPE_ENDPOINT,
        TYPE_BOS, TYPE_DEVICE_CAP, TYPE_SS_EP_COMP], c < 256) ∧
    [GET_STATUS, CLEAR_FEATURE, SET_FEATURE, SET_ADDRESS, GET_DESCRIPTOR,
      SET_DESCRIPTOR, GET_CONFIGURATION, SET_CONFIGURATION, GET_INTERFACE,
      SET_INTERFACE, SYNCH_FRAME, SET_SEL].Nodup ∧
    [TYPE_DEVICE, TYPE_CONFIGURATION, TYPE_STRING, TYPE_INTERFACE, TYPE_ENDPOINT,
      TYPE_BOS, TYPE_DEVICE_CAP, TYPE_SS_EP_COMP].Nodup := by
  decide

/-- C7: in the six request-type constants bit 7 (direction) is 1 for the
READ and 0 for the WRITE constants, the low five bits (recipient) are 0, 1, 2
for DEVICE, INTERFACE, ENDPOINT, bits 5-6 (request kind) are 0, and each READ
constant is the WRITE constant with `0x80` or-ed in. -/
theorem request_type_bit_fields :
    ((DEVICE_READ >>> 7) &&& 1 = 1 ∧ (INTERFACE_READ >>> 7) &&& 1 = 1 ∧
      (ENDPOINT_READ >>> 7) &&& 1 = 1) ∧
    ((DEVICE_WRITE >>> 7) &&& 1 = 0 ∧ (INTERFACE_WRITE >>> 7) &&& 1 = 0 ∧
      (ENDPOINT_WRITE >>> 7) &&& 1 = 0) ∧
    (DEVICE_READ &&& 0x1F = 0 ∧ DEVICE_WRITE &&& 0x1F = 0 ∧
      INTERFACE_READ &&& 0x1F = 1 ∧ INTERFACE_WRITE &&& 0x1F = 1 ∧
      ENDPOINT_READ &&& 0x1F = 2 ∧ ENDPOINT_WRITE &&& 0x1F = 2) ∧
    (∀ c ∈ [DEVICE_READ, DEVICE_WRITE, INTERFACE_READ, INTERFACE_WRITE, ENDPOINT_READ,
        ENDPOINT_WRITE], (c >>> 5) &&& 3 = 0) ∧
    (DEVICE_READ = DEVICE_WRITE ||| 0x80 ∧ INTERFACE_READ = INTERFACE_WRITE ||| 0x80 ∧
      ENDPOINT_READ = ENDPOINT_WRITE ||| 0x80) := by
  decide

/-- C9: for every status value, after `arch_disable_ints` the predicate
`arch_ints_disabled` is true and after `arch_enable_ints` it is false; the new
status is `old & ~IE`, respectively `old | IE`, so every bit outside the mask
keeps its value, and nothing else of the state changes. -/
theorem arch_ints_mask_frame (xlen IE : Nat) (s : arch_state) (hIE : IE ≠ 0)
    (hs : s.xstatus < 2 ^ xlen) :
    arch_ints_disabled IE (arch_disable_ints xlen IE s) = true ∧
    arch_ints_disabled IE (arch_enable_ints IE s) = false ∧
    (arch_disable_ints xlen IE s).xstatus = s.xstatus &&& ((2 ^ xlen - 1) ^^^ IE) ∧
    (arch_enable_ints IE s).xstatus = s.xstatus ||| IE ∧
    (∀ i, IE.testBit i = false →
      (arch_disable_ints xlen IE s).xstatus.testBit i = s.xstatus.testBit i ∧
      (arch_enable_ints IE s).xstatus.testBit i = s.xstatus.testBit i) ∧
    (arch_disable_ints xlen IE s).tp = s.tp ∧ (arch_disable_ints xlen IE s).mem = s.mem ∧
    (arch_enable_ints IE s).tp = s.tp ∧ (arch_enable_ints IE s).mem = s.mem := by
  have hbit : ∀ i, s.xstatus.testBit i = true → i < xlen := by
    intro i hi
    by_contra hlt
    have hle : 2 ^ xlen ≤ 2 ^ i := Nat.pow_le_pow_right (by decide) (Nat.le_of_not_lt hlt)
    have := Nat.testBit_lt_two_pow (Nat.lt_of_lt_of_le hs hle)
    simp [hi] at this
  refine ⟨?_, ?_, rfl, rfl, ?_, rfl, rfl, rfl, rfl⟩
  · have hz : (s.xstatus &&& ((2 ^ xlen - 1) ^^^ IE)) &&& IE = 0 := by
      apply Nat.eq_of_testBit_eq
      intro i
      simp only [Nat.testBit_and, Nat.testBit_xor, Nat.testBit_two_pow_sub_one,
        Nat.zero_testBit]
      cases hi : s.xstatus.testBit i
      · simp
      · have := hbit i hi
        cases hI : IE.testBit i <;> simp [this]
    simp [arch_ints_disabled, arch_disable_ints, riscv_csr_clear, riscv_csr_read, hz]
  · have hnz : (s.xstatus ||| IE) &&& IE ≠ 0 := by
      intro h0
      obtain ⟨i, hi⟩ := Nat.ne_zero_implies_bit_true hIE
      have := congrArg (fun n => Nat.testBit n i) h0
      simp [hi] at this
    simp [arch_ints_disabled, arch_enable_ints, riscv_csr_set, riscv_csr_read, hnz]
  · intro i hI
    constructor
    · simp only [arch_disable_ints, riscv_csr_clear, Nat.testBit_and, Nat.testBit_xor,
        Nat.testBit_two_pow_sub_one, hI]
      cases hi : s.xstatus.testBit i
      · simp
      · simp [hbit i hi]
    · simp [arch_enable_ints, riscv_csr_set, hI]

/-- Witness of C9 : machine mode on RV32 (`IE` is bit 3), status `0x1888`. -/
theorem arch_ints_mask_frame_witness :
    arch_ints_disabled 8 (arch_disable_ints 32 8 ⟨0x1888, 0, fun _ => 0⟩) = true ∧
    arch_ints_disabled 8 (arch_enable_ints 8 ⟨0x1888, 0, fun _ => 0⟩) = false ∧
    (arch_disable_ints 32 8 ⟨0x1888, 0, fun _ => 0⟩).xstatus = 0x1880 :=
  have h := arch_ints_mask_frame 32 8 ⟨0x1888, 0, fun _ => 0⟩ (by decide) (by decide)
  ⟨h.1, h.2.1, by decide⟩

/-- C8: each atomic primitive returns the prior content of the cell and
leaves in it, respectively, the sum reduced modulo `2 ^ 32` (read as a signed
number: the two's-complement wrap of the signed sum), the bitwise or, the
bitwise and, and the operand; the content stays a 32-bit pattern. -/
theorem atomic_fetch_and_modify (s : arch_state) (ptr val : Nat)
    (hold : s.mem ptr < 2 ^ 32) (hval : val < 2 ^ 32) :
    ((atomic_add s ptr val).1 = s.mem ptr ∧
      (atomic_add s ptr val).2.mem ptr = (s.mem ptr + val) % 2 ^ 32 ∧
      int_val ((atomic_add s ptr val).2.mem ptr) = wrap_int (int_val (s.mem ptr) + int_val val)) ∧
    ((atomic_or s ptr val).1 = s.mem ptr ∧
      (atomic_or s ptr val).2.mem ptr = s.mem ptr ||| val) ∧
    ((atomic_and s ptr val).1 = s.mem ptr ∧
      (atomic_and s ptr val).2.mem ptr = s.mem ptr &&& val) ∧
    ((atomic_swap s ptr val).1 = s.mem ptr ∧ (atomic_swap s ptr val).2.mem ptr = val) ∧
    ((atomic_add s ptr val).2.mem ptr < 2 ^ 32 ∧ (atomic_or s ptr val).2.mem ptr < 2 ^ 32 ∧
      (atomic_and s ptr val).2.mem ptr < 2 ^ 32 ∧ (atomic_swap s ptr val).2.mem ptr < 2 ^ 32) := by
  simp only [atomic_add, atomic_or, atomic_and, atomic_swap, __atomic_fetch_add,
    __atomic_fetch_or, __atomic_fetch_and, __atomic_exchange_n, Function.update_same,
    true_and]
  refine ⟨?_, ?_, ?_, ?_, hval⟩
  · simp only [int_val, wrap_int]
    split <;> split <;> split <;> omega
  · exact Nat.mod_lt _ (by decide)
  · exact Nat.or_lt_two_pow hold hval
  · exact Nat.and_lt_two_pow _ hval
/-- Witness of C8 : adding 1 to `INT_MAX` wraps to `INT_MIN`. -/
theorem atomic_fetch_and_modify_witness :
    (2147483647 : Nat) < 2 ^ 32 ∧ (1 : Nat) < 2 ^ 32 ∧
    (atomic_add ⟨0, 0, fun _ => 2147483647⟩ 16 1).1 = 2147483647 ∧
    int_val ((atomic_add ⟨0, 0, fun _ => 2147483647⟩ 16 1).2.mem 16) = wrap_int (2147483647 + 1) ∧
    wrap_int (2147483647 + 1) = -2147483648 :=
  have h := atomic_fetch_and_modify ⟨0, 0, fun _ => 2147483647⟩ 16 1 (by decide) (by decide)
  ⟨by decide, by decide, h.1.1, h.1.2.2, by decide⟩

/-- C10: `get_current_thread` after `set_current_thread t` returns `t`, and
`get_current_thread` leaves the state as it was, so two consecutive reads
return the same pointer. -/
theorem current_thread_get_set (t : Nat) (s : arch_state) :
    (get_current_thread (set_current_thread t s)).1 = t ∧
    (get_current_thread s).2 = s ∧
    (get_current_thread (get_current_thread s).2).1 = (get_current_thread s).1 ∧
    (set_current_thread t s).xstatus = s.xstatus ∧ (set_current_thread t s).mem = s.mem :=
  ⟨rfl, rfl, rfl, rfl, rfl⟩

/-! ### Setup packet -/

theorem load16_eq (lo hi : Fin 256) : load16 lo hi = lo.val + 256 * hi.val := by
  have h := Nat.mul_add_lt_is_or (i := 8) lo.isLt hi.val
  simp only [load16, Nat.shiftLeft_eq]
  rw [Nat.or_comm, Nat.mul_comm, ← h]
  omega

theorem load32_eq (a b c d : Fin 256) :
    load32 a b c d = a.val + 2 ^ 8 * b.val + 2 ^ 16 * c.val + 2 ^ 24 * d.val := by
  have ha := a.isLt
  have hb := b.isLt
  have hc := c.isLt
  have h1 := Nat.mul_add_lt_is_or (i := 8) (b := a.val) ha b.val
  have h2 := Nat.mul_add_lt_is_or (i := 16) (b := 2 ^ 8 * b.val + a.val) (by omega) c.val
  have h3 := Nat.mul_add_lt_is_or (i := 24)
    (b := 2 ^ 16 * c.val + (2 ^ 8 * b.val + a.val)) (by omega) d.val
  simp only [load32, Nat.shiftLeft_eq]
  rw [Nat.or_comm a.val, Nat.mul_comm b.val, ← h1, Nat.or_comm _ (c.val * 2 ^ 16),
    Nat.mul_comm c.val, ← h2, Nat.or_comm _ (d.val * 2 ^ 24), Nat.mul_comm d.val, ← h3]
  omega

theorem byte_of_val (x k : Nat) : (byte_of x k).val = x / 2 ^ (8 * k) % 256 := by
  simp [byte_of, Nat.shiftRight_eq_div_pow]

/-- C1: decoding eight bytes is total and the two views of the union describe
the same bytes: the members of the structured view are the little-endian
readings of the bytes, the raw words are composed of the structured members,
and storing either view again gives the original eight bytes. -/
theorem setup_packet_views (b0 b1 b2 b3 b4 b5 b6 b7 : Fin 256) :
    (setup_packet.decode b0 b1 b2 b3 b4 b5 b6 b7).type = b0.val ∧
    (setup_packet.decode b0 b1 b2 b3 b4 b5 b6 b7).request = b1.val ∧
    (setup_packet.decode b0 b1 b2 b3 b4 b5 b6 b7).value = b2.val + 256 * b3.val ∧
    (setup_packet.decode b0 b1 b2 b3 b4 b5 b6 b7).index = b4.val + 256 * b5.val ∧
    (setup_packet.decode b0 b1 b2 b3 b4 b5 b6 b7).length = b6.val + 256 * b7.val ∧
    (setup_packet.decode b0 b1 b2 b3 b4 b5 b6 b7).w0 =
      (setup_packet.decode b0 b1 b2 b3 b4 b5 b6 b7).type +
      2 ^ 8 * (setup_packet.decode b0 b1 b2 b3 b4 b5 b6 b7).request +
      2 ^ 16 * (setup_packet.decode b0 b1 b2 b3 b4 b5 b6 b7).value ∧
    (setup_packet.decode b0 b1 b2 b3 b4 b5 b6 b7).w1 =
      (setup_packet.decode b0 b1 b2 b3 b4 b5 b6 b7).index +
      2 ^ 16 * (setup_packet.decode b0 b1 b2 b3 b4 b5 b6 b7).length ∧
    setup_packet.of_fields (setup_packet.decode b0 b1 b2 b3 b4 b5 b6 b7).type
      (setup_packet.decode b0 b1 b2 b3 b4 b5 b6 b7).request
      (setup_packet.decode b0 b1 b2 b3 b4 b5 b6 b7).value
      (setup_packet.decode b0 b1 b2 b3 b4 b5 b6 b7).index
      (setup_packet.decode b0 b1 b2 b3 b4 b5 b6 b7).length =
      setup_packet.mk b0 b1 b2 b3 b4 b5 b6 b7 ∧
    setup_packet.of_words (setup_packet.decode b0 b1 b2 b3 b4 b5 b6 b7).w0
      (setup_packet.decode b0 b1 b2 b3 b4 b5 b6 b7).w1 =
      setup_packet.mk b0 b1 b2 b3 b4 b5 b6 b7 := by
  have h0 := b0.isLt
  have h1 := b1.isLt
  have h2 := b2.isLt
  have h3 := b3.isLt
  have h4 := b4.isLt
  have h5 := b5.isLt
  have h6 := b6.isLt
  have h7 := b7.isLt
  simp only [setup_packet.decode, setup_packet.type, setup_packet.request,
    setup_packet.value, setup_packet.index, setup_packet.length, setup_packet.w0,
    setup_packet.w1, load16_eq, load32_eq, setup_packet.of_fields, setup_packet.of_words,
    setup_packet.mk.injEq, Fin.ext_iff, byte_of_val]
  norm_num
  omega

/-- C2: two setup packets have equal raw words exactly when they agree on the
five members of the structured view (and exactly when they are the same
eight bytes). -/
theorem setup_packet_words_eq_iff (p q : setup_packet) :
    ((p.w0 = q.w0 ∧ p.w1 = q.w1) ↔
      (p.type = q.type ∧ p.request = q.request ∧ p.value = q.value ∧
        p.index = q.index ∧ p.length = q.length)) ∧
    ((p.w0 = q.w0 ∧ p.w1 = q.w1) ↔ p = q) := by
  obtain ⟨a0, a1, a2, a3, a4, a5, a6, a7⟩ := p
  obtain ⟨c0, c1, c2, c3, c4, c5, c6, c7⟩ := q
  have h0 := a0.isLt
  have h1 := a1.isLt
  have h2 := a2.isLt
  have h3 := a3.isLt
  have h4 := a4.isLt
  have h5 := a5.isLt
  have h6 := a6.isLt
  have h7 := a7.isLt
  have k0 := c0.isLt
  have k1 := c1.isLt
  have k2 := c2.isLt
  have k3 := c3.isLt
  have k4 := c4.isLt
  have k5 := c5.isLt
  have k6 := c6.isLt
  have k7 := c7.isLt
  simp only [setup_packet.type, setup_packet.request, setup_packet.value,
    setup_packet.index, setup_packet.length, setup_packet.w0, setup_packet.w1, load16_eq,
    load32_eq, setup_packet.mk.injEq, Fin.ext_iff]
  omega

/-! ### Descriptor tags -/

theorem descriptor_tag_eq (type num : Nat) (ht : type < 256) (hn : num < 256) :
    descriptor_tag type num = 256 * type + num := by
  have h := Nat.mul_add_lt_is_or (i := 8) (b := num) hn type
  simp only [descriptor_tag, Nat.shiftLeft_eq]
  rw [Nat.mul_comm, ← h]
  omega

/-- C5: for byte-sized type and index the tag `(type << 8) | index` fits the
16-bit field and gives both components back, so the composition is injective
on pairs of bytes; and a 16-bit GET_DESCRIPTOR value composed again from its
high and low byte is the value itself. -/
theorem descriptor_tag_lossless (type num v : Nat) (ht : type < 256) (hn : num < 256)
    (hv : v < 2 ^ 16) :
    descriptor_tag type num = (type <<< 8) ||| num ∧
    descriptor_tag type num < 2 ^ 16 ∧
    descriptor_tag type num >>> 8 = type ∧
    descriptor_tag type num &&& 0xFF = num ∧
    (∀ type2 num2, type2 < 256 → num2 < 256 →
      descriptor_tag type num = descriptor_tag type2 num2 → type = type2 ∧ num = num2) ∧
    descriptor_tag ((v >>> 8) &&& 0xFF) (v &&& 0xFF) = v := by
  have hand : ∀ x : Nat, x &&& 0xFF = x % 256 := fun x => Nat.and_pow_two_sub_one_eq_mod x 8
  have e := descriptor_tag_eq type num ht hn
  refine ⟨?_, ?_, ?_, ?_, ?_, ?_⟩
  · have h := Nat.mul_add_lt_is_or (i := 8) (b := num) hn type
    rw [e, Nat.shiftLeft_eq, Nat.mul_comm type, ← h]
  · omega
  · rw [e, Nat.shiftRight_eq_div_pow]
    omega
  · rw [e, hand]
    omega
  · intro type2 num2 ht2 hn2 h
    rw [e, descriptor_tag_eq type2 num2 ht2 hn2] at h
    omega
  · rw [hand, hand, Nat.shiftRight_eq_div_pow,
      descriptor_tag_eq _ _ (Nat.mod_lt _ (by decide)) (Nat.mod_lt _ (by decide))]
    omega

/-- Witness of C5 : string descriptor 7, tag `0x0307`. -/
theorem descriptor_tag_lossless_witness :
    TYPE_STRING < 256 ∧ (7 : Nat) < 256 ∧ (0x0307 : Nat) < 2 ^ 16 ∧
    descriptor_tag TYPE_STRING 7 = 0x0307 ∧
    descriptor_tag TYPE_STRING 7 >>> 8 = TYPE_STRING ∧
    descriptor_tag TYPE_STRING 7 &&& 0xFF = 7 ∧
    descriptor_tag ((0x0307 >>> 8) &&& 0xFF) (0x0307 &&& 0xFF) = 0x0307 :=
  have h := descriptor_tag_lossless TYPE_STRING 7 0x0307 (by decide) (by decide) (by decide)
  ⟨by decide, by decide, by decide, by decide, h.2.2.1, h.2.2.2.1, h.2.2.2.2.2⟩

/-! ### Descriptor registry -/

theorem first_duplicate_none_iff (ts : List Nat) : first_duplicate ts = none ↔ ts.Nodup := by
  induction ts with
  | nil => simp [first_duplicate]
  | cons t ts ih =>
    by_cases h : t ∈ ts
    · simp [first_duplicate, h]
    · simp [first_duplicate, h, ih]

theorem registry_find_some {l : List udc_descriptor} {t : Nat} {n : udc_descriptor}
    (h : registry_find l t = some n) : n ∈ l ∧ n.tag = t := by
  induction l with
  | nil => simp [registry_find] at h
  | cons d rest ih =>
    by_cases hd : d.tag = t
    · simp only [registry_find, hd, if_true, Option.some.injEq] at h
      subst h
      exact ⟨List.mem_cons_self _ _, hd⟩
    · simp only [registry_find, hd, if_false] at h
      exact ⟨List.mem_cons_of_mem _ (ih h).1, (ih h).2⟩

theorem registry_find_none_iff (l : List udc_descriptor) (t : Nat) :
    registry_find l t = none ↔ ∀ d ∈ l, d.tag ≠ t := by
  induction l with
  | nil => simp [registry_find]
  | cons d rest ih =>
    by_cases hd : d.tag = t
    · simp [registry_find, hd]
    · simp [registry_find, hd, ih]

theorem assemble_ok {fill : udc_endpoint → List Nat} {device : udc_device}
    {gadgets : List udc_gadget} {registry : List udc_descriptor}
    (h : assemble fill device gadgets = .ok registry) :
    registry = built_descriptors fill device gadgets ∧
    (registry.map (fun d => d.tag)).Nodup ∧
    (∀ r ∈ emit_descriptors fill device gadgets, r.num < 256) ∧
    (∀ a ∈ endpoint_refs gadgets,
      ∃ n, registry_find registry (descriptor_tag TYPE_ENDPOINT a) = some n) ∧
    (∀ c ∈ device.configs,
      (config_descriptor fill gadgets c).node.total_length =
        (((config_nested fill gadgets c).map raw_descriptor.node).map (fun d => d.len)).sum) := by
  simp only [assemble] at h
  split at h
  · cases h
  · rename_i hrange
    split at h
    · cases h
    · rename_i hdup
      split at h
      · cases h
      · rename_i hrefs
        split at h
        · cases h
        · rename_i hlen
          simp only [Except.ok.injEq] at h
          subst h
          refine ⟨rfl, (first_duplicate_none_iff _).1 hdup, ?_, ?_, ?_⟩
          · intro r hr
            have := List.find?_eq_none.1 hrange r hr
            simpa using this
          · intro a ha
            have := List.find?_eq_none.1 hrefs a ha
            cases hf : registry_find (built_descriptors fill device gadgets)
                (descriptor_tag TYPE_ENDPOINT a) with
            | none => simp [hf] at this
            | some n => exact ⟨n, rfl⟩
          · intro c hc
            have := List.find?_eq_none.1 hlen c hc
            simpa using this

theorem built_descriptors_config_split (fill : udc_endpoint → List Nat) (device : udc_device)
    (gadgets : List udc_gadget) (c : udc_config) (hc : c ∈ device.configs) :
    ∃ pre post, built_descriptors fill device gadgets =
      pre ++ (config_descriptor fill gadgets c).node ::
        ((config_nested fill gadgets c).map raw_descriptor.node ++ post) := by
  obtain ⟨l1, l2, hl⟩ := List.append_of_mem hc
  refine ⟨(⟨TYPE_DEVICE, 0, device.data⟩ :: l1.flatMap
      (fun c => config_descriptor fill gadgets c :: config_nested fill gadgets c)).map
      raw_descriptor.node,
    (l2.flatMap (fun c => config_descriptor fill gadgets c :: config_nested fill gadgets c) ++
      (string_descriptors device gadgets ++ bos_descriptors device gadgets)).map
      raw_descriptor.node, ?_⟩
  simp [built_descriptors, emit_descriptors, hl, List.flatMap_append, List.flatMap_cons]

/-- The example device assembles: the registry is the list of built nodes. -/
theorem assemble_example_ok :
    assemble example_fill example_device [example_gadget] =
      .ok (built_descriptors example_fill example_device [example_gadget]) := by
  rfl

/-- C4: `assemble` fails with an assembly error, or it returns the built
nodes and these have pairwise-distinct tags and, for every configuration, the
registry holds the configuration node directly followed by the descriptors
nested under it, and the total-length field of the configuration node equals
the sum of the `len` fields of those nested descriptors. -/
theorem assemble_registry_invariants (fill : udc_endpoint → List Nat) (device : udc_device)
    (gadgets : List udc_gadget) :
    (∃ e, assemble fill device gadgets = .error e) ∨
    (∃ registry, assemble fill device gadgets = .ok registry ∧
      (udc_create_descriptors fill ⟨[]⟩ device gadgets).desc_list = registry ∧
      (registry.map (fun d => d.tag)).Nodup ∧
      (∀ i j : Fin registry.length, (registry.get i).tag = (registry.get j).tag → i = j) ∧
      (∀ c ∈ device.configs, ∃ pre post cfg nested,
        registry = pre ++ cfg :: (nested ++ post) ∧
        cfg = (config_descriptor fill gadgets c).node ∧
        nested = (config_nested fill gadgets c).map raw_descriptor.node ∧
        cfg.tag = descriptor_tag TYPE_CONFIGURATION c.value ∧
        cfg.total_length = (nested.map (fun d => d.len)).sum)) := by
  cases h : assemble fill device gadgets with
  | error e => exact Or.inl ⟨e, rfl⟩
  | ok registry =>
    right
    obtain ⟨hreg, hnodup, _, _, hlen⟩ := assemble_ok h
    refine ⟨registry, rfl, ?_, hnodup, ?_, ?_⟩
    · simp [udc_create_descriptors, h]
    · intro i j hij
      have hinj := (List.nodup_iff_injective_get.1 hnodup)
      have hi : i.val < (registry.map (fun d => d.tag)).length := by simp
      have hj : j.val < (registry.map (fun d => d.tag)).length := by simp
      have := @hinj ⟨i.val, hi⟩ ⟨j.val, hj⟩ (by simpa using hij)
      exact Fin.ext (by simpa using congrArg Fin.val this)
    · intro c hc
      obtain ⟨pre, post, hsplit⟩ := built_descriptors_config_split fill device gadgets c hc
      exact ⟨pre, post, _, _, hreg.trans hsplit, rfl, rfl, rfl, hlen c hc⟩

/-- C3: for all tags `t`, `udc_descriptor_find t` called after
`udc_create_descriptors` has assembled the registry from the inputs returns
a node with tag `t` exactly when some descriptor built from the inputs was
given tag `t`; that node is the only built descriptor with the tag; and it
returns not-found when no built descriptor was given tag `t`. -/
theorem find_after_create (fill : udc_endpoint → List Nat) (st : udc_state)
    (device : udc_device) (gadget : List udc_gadget) (registry : List udc_descriptor)
    (h : assemble fill device gadget = .ok registry) (t : Nat) :
    ((∃ n, udc_descriptor_find (udc_create_descriptors fill st device gadget) t = some n ∧
        n.tag = t) ↔
      ∃ d ∈ built_descriptors fill device gadget, d.tag = t) ∧
    (∀ n, udc_descriptor_find (udc_create_descriptors fill st device gadget) t = some n →
      n ∈ built_descriptors fill device gadget ∧ n.tag = t ∧
      ∀ d ∈ built_descriptors fill device gadget, d.tag = t → d = n) ∧
    ((¬ ∃ d ∈ built_descriptors fill device gadget, d.tag = t) →
      udc_descriptor_find (udc_create_descriptors fill st device gadget) t = none) := by
  obtain ⟨hreg, hnodup, _, _, _⟩ := assemble_ok h
  have hst : udc_create_descriptors fill st device gadget = ⟨registry⟩ := by
    simp [udc_create_descriptors, h]
  subst hreg
  simp only [hst, udc_descriptor_find]
  refine ⟨⟨?_, ?_⟩, ?_, ?_⟩
  · rintro ⟨n, hn, hnt⟩
    exact ⟨n, (registry_find_some hn).1, hnt⟩
  · rintro ⟨d, hd, hdt⟩
    cases hf : registry_find (built_descriptors fill device gadget) t with
    | none => exact absurd hdt ((registry_find_none_iff _ _).1 hf d hd)
    | some n => exact ⟨n, rfl, (registry_find_some hf).2⟩
  · intro n hn
    obtain ⟨hmem, htag⟩ := registry_find_some hn
    refine ⟨hmem, htag, ?_⟩
    intro d hd hdt
    exact List.inj_on_of_nodup_map hnodup hd hmem (hdt.trans htag.symm)
  · intro hno
    refine (registry_find_none_iff _ _).2 ?_
    intro d hd hdt
    exact hno ⟨d, hd, hdt⟩

/-- Witness of C3 : the example device assembles, and its string
descriptor 2 is found under tag `0x0302`. -/
theorem find_after_create_witness :
    assemble example_fill example_device [example_gadget] =
      .ok (built_descriptors example_fill example_device [example_gadget]) ∧
    ((∃ n, udc_descriptor_find
        (udc_create_descriptors example_fill ⟨[]⟩ example_device [example_gadget]) 0x0302 =
          some n ∧ n.tag = 0x0302) ↔
      ∃ d ∈ built_descriptors example_fill example_device [example_gadget], d.tag = 0x0302) ∧
    udc_descriptor_find
      (udc_create_descriptors example_fill ⟨[]⟩ example_device [example_gadget]) 0x0302 =
        some ⟨0x0302, 4, [4, 3, 0x6b, 0]⟩ :=
  ⟨rfl, (find_after_create example_fill ⟨[]⟩ example_device [example_gadget] _ rfl 0x0302).1, rfl⟩

end lk
